import Mathlib

/-!
Shallow embedding of `src/backend/main/main.c` (the postgres executable's
entry routine): mode classification, locale negotiation via `init_locale`,
the root/privilege check `check_root` with its bypass flag `do_check_root`,
and the final dispatch chain to the role drivers.

The embedding follows the non-Windows (`#ifndef WIN32`) compilation of the
file, with the `EXEC_BACKEND` build flag kept as an explicit boolean
parameter.  Machine-level effects (printing, `exit`, `elog(FATAL, ...)`,
`unsetenv`) are modelled as an event trace plus a terminal outcome.
-/

namespace PgMain

/-- The closed set of operating roles the entry routine can select. -/
inductive ExecutionMode where
  | ShowHelp
  | ShowVersion
  | DescribeConfig
  | ForkedWorker
  | BootstrapLoad
  | SingleSession
  | Supervisor
deriving DecidableEq, Repr

/-- The concrete role-driver entry points named in the dispatch chain of
`main` (lines 218-244 of main.c). -/
inductive DispatchTarget where
  | SubPostmasterMain
  | AuxiliaryProcessMain
  | GucInfoMain
  | PostgresMain
  | PostmasterMain
deriving DecidableEq, Repr

/-- A role-driver invocation together with the arguments `main` passes it.
`postgresSingle` records the `NULL` dbname and the user-name string that
`main` passes to `PostgresMain` (line 239-241). -/
inductive DispatchCall where
  | subPostmaster (argv : List String)
  | auxiliaryProcess (argv : List String)
  | gucInfo
  | postgresSingle (argv : List String) (dbname : Option String) (username : String)
  | postmaster (argv : List String)
deriving DecidableEq, Repr

/-- Observable actions of the entry routine before its terminal outcome. -/
inductive Event where
  | localeSet (category : String) (requested : String) (resolved : String)
  | unsetEnvVar (v : String)
  | wroteHelp
  | wroteVersion
deriving DecidableEq, Repr

/-- Terminal outcome of the modelled entry routine: a direct `exit(code)`,
an `elog(FATAL, ...)` from `init_locale` naming the category and the
rejected locale value, or a non-returning handoff to a role driver. -/
inductive Outcome where
  | exited (code : Nat)
  | fatalLocale (category : String) (locale : String)
  | dispatched (call : DispatchCall)
deriving DecidableEq, Repr

/-- Process-level inputs of `main`: the argument vector (`argv`, with the
program name at index 0), the real and effective user ids, the behaviour of
`pg_perm_setlocale` for each (category name, locale string) pair, the name
returned by `get_user_name_or_exit`, and the `EXEC_BACKEND` build flag. -/
structure Config where
  argv : List String
  ruid : Nat
  euid : Nat
  localeOk : String → String → Bool
  userName : String
  execBackend : Bool

/-- `init_locale` (main.c lines 321-328): try the requested locale, retry
with `"C"` on failure, and fail fatally when both are rejected.  The error
carries the category name and the rejected requested value, matching the
`elog(FATAL, "could not adopt \x7b...\x7d locale nor C locale for ...")`
diagnostic. -/
def init_locale (localeOk : String → String → Bool)
    (categoryname : String) (locale : String) : Except (String × String) String :=
  if localeOk categoryname locale then Except.ok locale
  else if localeOk categoryname "C" then Except.ok "C"
  else Except.error (categoryname, locale)

/-- The sequence of `init_locale` calls made by `main` (lines 146-162, the
non-Windows branch with `LC_MESSAGES` available): the first three request
the environment's locale (the empty string passed to `setlocale`), the last
three are pinned to the literal `"C"`. -/
def localeCategories : List (String × String) :=
  [("LC_COLLATE", ""), ("LC_CTYPE", ""), ("LC_MESSAGES", ""),
   ("LC_MONETARY", "C"), ("LC_NUMERIC", "C"), ("LC_TIME", "C")]

/-- Run a sequence of `init_locale` calls in order.  Returns the
`localeSet` events produced before any failure, and the fatal diagnostic of
the first failing category when one exists. -/
def runLocaleSetup (localeOk : String → String → Bool) :
    List (String × String) → List Event × Option (String × String)
  | [] => ([], none)
  | (cat, loc) :: rest =>
    match init_locale localeOk cat loc with
    | Except.error e => ([], some e)
    | Except.ok resolved =>
      let tail := runLocaleSetup localeOk rest
      (Event.localeSet cat loc resolved :: tail.1, tail.2)

/-- `check_root` (main.c lines 400-438, non-Windows branch): `exit(1)` when
the effective uid is root, or when the real and effective uids differ;
otherwise return normally (`none`). -/
def check_root (ruid euid : Nat) : Option Nat :=
  if euid = 0 then some 1
  else if ruid ≠ euid then some 1
  else none

/-- The value of the `do_check_root` flag at line 211 of main.c: cleared
only when `argv[1]` is `--describe-config`, or when `argv[1]` is `-C` and
`argc > 2` (lines 201-204). -/
def doCheckRoot (argv : List String) : Bool :=
  match argv.get? 1 with
  | none => true
  | some a1 =>
    if a1 = "--describe-config" then false
    else if argv.length > 2 && a1 = "-C" then false
    else true

/-- The `--boot` / `--describe-config` / `--single` / default dispatch
chain (main.c lines 234-243), with the arguments passed at each call
site. -/
def chainCall (c : Config) : DispatchCall :=
  match c.argv.get? 1 with
  | none => DispatchCall.postmaster c.argv
  | some a1 =>
    if a1 = "--boot" then DispatchCall.auxiliaryProcess c.argv
    else if a1 = "--describe-config" then DispatchCall.gucInfo
    else if a1 = "--single" then DispatchCall.postgresSingle c.argv none c.userName
    else DispatchCall.postmaster c.argv

/-- Whether the `EXEC_BACKEND`-only forked-worker test at line 219 fires:
`argc > 1 && strncmp(argv[1], "--fork", 6) == 0`, i.e. the six characters
of `"--fork"` are a prefix of `argv[1]`. -/
def forkTest (execBackend : Bool) (argv : List String) : Bool :=
  execBackend &&
    match argv.get? 1 with
    | some a1 => List.isPrefixOf "--fork".toList a1.toList
    | none => false

/-- The first role driver `main` hands control to (lines 218-243). -/
def dispatchCall (c : Config) : DispatchCall :=
  if forkTest c.execBackend c.argv then DispatchCall.subPostmaster c.argv
  else chainCall c

/-- Map a dispatch call to its driver entry point. -/
def callTarget : DispatchCall → DispatchTarget
  | DispatchCall.subPostmaster _ => DispatchTarget.SubPostmasterMain
  | DispatchCall.auxiliaryProcess _ => DispatchTarget.AuxiliaryProcessMain
  | DispatchCall.gucInfo => DispatchTarget.GucInfoMain
  | DispatchCall.postgresSingle _ _ _ => DispatchTarget.PostgresMain
  | DispatchCall.postmaster _ => DispatchTarget.PostmasterMain

/-- The dispatch section of `main` (lines 218-244) executed against role
drivers that may, hypothetically, return control (`returns t = true`).
In the source the `--fork` test is a separate `if` in front of the
`if/else` chain, so a returning `SubPostmasterMain` falls into the chain;
a return from the chain's driver reaches `abort()` at line 244.  Result:
the list of drivers invoked in order, and whether `abort()` was reached. -/
def runDispatch (c : Config) (returns : DispatchTarget → Bool) :
    List DispatchTarget × Bool :=
  if forkTest c.execBackend c.argv then
    if returns DispatchTarget.SubPostmasterMain then
      let t := callTarget (chainCall c)
      ([DispatchTarget.SubPostmasterMain, t], returns t)
    else ([DispatchTarget.SubPostmasterMain], false)
  else
    let t := callTarget (chainCall c)
    ([t], returns t)

/-- The unified mode classification of `main`: the `--help`/`--version`
short-circuit (lines 180-189) followed by the dispatch chain (lines
218-243), in source order. -/
def classifyMode (execBackend : Bool) (argv : List String) : ExecutionMode :=
  match argv.get? 1 with
  | none => ExecutionMode.Supervisor
  | some a1 =>
    if a1 = "--help" ∨ a1 = "-?" then ExecutionMode.ShowHelp
    else if a1 = "--version" ∨ a1 = "-V" then ExecutionMode.ShowVersion
    else if execBackend && List.isPrefixOf "--fork".toList a1.toList then
      ExecutionMode.ForkedWorker
    else if a1 = "--boot" then ExecutionMode.BootstrapLoad
    else if a1 = "--describe-config" then ExecutionMode.DescribeConfig
    else if a1 = "--single" then ExecutionMode.SingleSession
    else ExecutionMode.Supervisor

/-- The events emitted before the standard-option short-circuit: all
`localeSet` events followed by `unsetenv("LC_ALL")` (main.c line 170). -/
def baseEvents (c : Config) : List Event :=
  (runLocaleSetup c.localeOk localeCategories).1 ++ [Event.unsetEnvVar "LC_ALL"]

/-- The tail of `main` after locale setup: the help/version short-circuit
(lines 178-189), then the root check when not bypassed (lines 201-212),
then the dispatch handoff. -/
def mainAfterLocale (c : Config) (evs : List Event) : List Event × Outcome :=
  let guarded : List Event × Outcome :=
    if doCheckRoot c.argv then
      match check_root c.ruid c.euid with
      | some code => (evs, Outcome.exited code)
      | none => (evs, Outcome.dispatched (dispatchCall c))
    else (evs, Outcome.dispatched (dispatchCall c))
  match c.argv.get? 1 with
  | none => guarded
  | some a1 =>
    if a1 = "--help" ∨ a1 = "-?" then
      (evs ++ [Event.wroteHelp], Outcome.exited 0)
    else if a1 = "--version" ∨ a1 = "-V" then
      (evs ++ [Event.wroteVersion], Outcome.exited 0)
    else guarded

/-- The modelled entry routine: locale negotiation (fatal on total
adoption failure), `unsetenv("LC_ALL")`, the help/version short-circuit,
the conditional root check, and the dispatch handoff, in source order. -/
def mainModel (c : Config) : List Event × Outcome :=
  let locales := runLocaleSetup c.localeOk localeCategories
  match locales.2 with
  | some e => (locales.1, Outcome.fatalLocale e.1 e.2)
  | none => mainAfterLocale c (baseEvents c)

/-- Modelled from the spec: `PostgresMain`, the single-session engine, is
not part of src/ (main.c only calls it).  Per the spec, in single-session
mode a given database name (the argument after `--single`) is forwarded as
the target, and the default session-owner name derived from the invoking
identity is used as the target only when no explicit target argument is
given. -/
def singleSessionTarget (argv : List String) (username : String) : String :=
  match argv.get? 2 with
  | some db => db
  | none => username

end PgMain

namespace PgMain

/-! ### Helper lemmas -/

/-- Every event produced by a locale-setup run is a `localeSet` whose
category/requested pair comes from the input list and whose resolved value
is either the requested locale or `"C"`. -/
lemma runLocaleSetup_events (lok : String → String → Bool) (l : List (String × String)) :
    ∀ e ∈ (runLocaleSetup lok l).1, ∃ cat loc r, e = Event.localeSet cat loc r ∧
      (cat, loc) ∈ l ∧ (r = loc ∨ r = "C") := by
  induction l with
  | nil => intro e he; simp [runLocaleSetup] at he
  | cons p rest ih =>
    obtain ⟨cat, loc⟩ := p
    intro e he
    rcases hinit : init_locale lok cat loc with err | resolved
    · simp [runLocaleSetup, hinit] at he
    · simp only [runLocaleSetup, hinit, List.mem_cons] at he
      rcases he with he | he
      · refine ⟨cat, loc, resolved, he, List.mem_cons_self _ _, ?_⟩
        unfold init_locale at hinit
        split at hinit
        · exact Or.inl (Except.ok.inj hinit).symm
        · split at hinit
          · exact Or.inr (Except.ok.inj hinit).symm
          · exact absurd hinit (by simp)
      · obtain ⟨c, l2, r, h1, h2, h3⟩ := ih e he
        exact ⟨c, l2, r, h1, List.mem_cons_of_mem _ h2, h3⟩

/-- When a locale-setup run finishes without a fatal error, every category
of the input list has a recorded resolved value. -/
lemma runLocaleSetup_resolves (lok : String → String → Bool) (l : List (String × String))
    (h : (runLocaleSetup lok l).2 = none) :
    ∀ p ∈ l, ∃ r, Event.localeSet p.1 p.2 r ∈ (runLocaleSetup lok l).1 := by
  induction l with
  | nil => intro p hp; simp at hp
  | cons q rest ih =>
    obtain ⟨cat, loc⟩ := q
    intro p hp
    rcases hinit : init_locale lok cat loc with err | resolved
    · rw [runLocaleSetup, hinit] at h; simp at h
    · rw [runLocaleSetup, hinit] at h
      simp only [runLocaleSetup, hinit]
      rcases List.mem_cons.mp hp with hp | hp
      · subst hp; exact ⟨resolved, List.mem_cons_self _ _⟩
      · obtain ⟨r, hr⟩ := ih h p hp
        exact ⟨r, List.mem_cons_of_mem _ hr⟩

/-- The tail of `main` only appends events to those already emitted. -/
lemma mainAfterLocale_fst (c : Config) (evs : List Event) :
    ∃ rest, (mainAfterLocale c evs).1 = evs ++ rest := by
  unfold mainAfterLocale
  rcases c.argv.get? 1 with _ | a1
  · split
    · split
      · exact ⟨[], (List.append_nil evs).symm⟩
      · exact ⟨[], (List.append_nil evs).symm⟩
    · exact ⟨[], (List.append_nil evs).symm⟩
  · simp only
    split
    · exact ⟨[Event.wroteHelp], rfl⟩
    · split
      · exact ⟨[Event.wroteVersion], rfl⟩
      · split
        · split
          · exact ⟨[], (List.append_nil evs).symm⟩
          · exact ⟨[], (List.append_nil evs).symm⟩
        · exact ⟨[], (List.append_nil evs).symm⟩

/-- When locale negotiation succeeds, `mainModel` runs the post-locale
tail on the base event trace. -/
lemma mainModel_of_ok (c : Config)
    (h : (runLocaleSetup c.localeOk localeCategories).2 = none) :
    mainModel c = mainAfterLocale c (baseEvents c) := by
  simp only [mainModel]
  rw [h]

/-- The `--help`/`-?` short-circuit of the post-locale tail. -/
lemma mainAfterLocale_help (c : Config) (evs : List Event)
    (h : c.argv.get? 1 = some "--help" ∨ c.argv.get? 1 = some "-?") :
    mainAfterLocale c evs = (evs ++ [Event.wroteHelp], Outcome.exited 0) := by
  unfold mainAfterLocale
  rcases h with h | h <;> rw [h] <;> simp

/-- The `--version`/`-V` short-circuit of the post-locale tail. -/
lemma mainAfterLocale_version (c : Config) (evs : List Event)
    (h : c.argv.get? 1 = some "--version" ∨ c.argv.get? 1 = some "-V") :
    mainAfterLocale c evs = (evs ++ [Event.wroteVersion], Outcome.exited 0) := by
  unfold mainAfterLocale
  rcases h with h | h <;> rw [h] <;> simp

end PgMain

namespace PgMain

/-! ### Claim theorems -/

/-- C5: for every locale category, negotiation first attempts the requested
locale, on failure retries with the portable default locale `"C"`, and if
that also fails terminates fatally with a diagnostic naming the category
and the rejected value; after a successful negotiation every recognized
category has a resolved locale setting recorded. -/
theorem locale_negotiation_fallback (lok : String → String → Bool) (cat loc : String) :
    (lok cat loc = true → init_locale lok cat loc = Except.ok loc) ∧
    (lok cat loc = false → lok cat "C" = true → init_locale lok cat loc = Except.ok "C") ∧
    (lok cat loc = false → lok cat "C" = false →
      init_locale lok cat loc = Except.error (cat, loc)) ∧
    ((runLocaleSetup lok localeCategories).2 = none →
      ∀ p ∈ localeCategories, ∃ r,
        Event.localeSet p.1 p.2 r ∈ (runLocaleSetup lok localeCategories).1) := by
  refine ⟨?_, ?_, ?_, ?_⟩
  · intro h; simp [init_locale, h]
  · intro h1 h2; simp [init_locale, h1, h2]
  · intro h1 h2; simp [init_locale, h1, h2]
  · intro h; exact runLocaleSetup_resolves lok localeCategories h

/-- Witness for C5 at a concrete locale oracle that rejects everything but
`"C"`: the fallback fires, and the pinned `LC_MONETARY` category ends up
with a recorded resolved value. -/
theorem locale_negotiation_fallback_witness :
    init_locale (fun _ s => decide (s = "C")) "LC_COLLATE" "" = Except.ok "C" ∧
    (∃ r, Event.localeSet "LC_MONETARY" "C" r ∈
      (runLocaleSetup (fun _ s => decide (s = "C")) localeCategories).1) := by
  constructor
  · exact (locale_negotiation_fallback (fun _ s => decide (s = "C")) "LC_COLLATE" "").2.1
      rfl rfl
  · exact (locale_negotiation_fallback (fun _ s => decide (s = "C")) "" "").2.2.2
      rfl ("LC_MONETARY", "C") (by decide)

/-- C6: the monetary, numeric and time categories are requested with the
literal `"C"` (never with the environment's locale, which the model
renders as the empty request string), the value they resolve to is `"C"`,
and `LC_ALL` is removed from the environment right after all locale
categories are processed. -/
theorem pinned_categories_and_lc_all (c : Config)
    (hloc : (runLocaleSetup c.localeOk localeCategories).2 = none) :
    (∀ cat loc r,
        Event.localeSet cat loc r ∈ (runLocaleSetup c.localeOk localeCategories).1 →
        (cat = "LC_MONETARY" ∨ cat = "LC_NUMERIC" ∨ cat = "LC_TIME") →
        loc = "C" ∧ r = "C") ∧
    (∃ rest, (mainModel c).1 =
        (runLocaleSetup c.localeOk localeCategories).1 ++
          Event.unsetEnvVar "LC_ALL" :: rest) := by
  constructor
  · intro cat loc r hmem hcat
    obtain ⟨cat2, loc2, r2, heq, hin, hr⟩ :=
      runLocaleSetup_events c.localeOk localeCategories _ hmem
    injection heq with h1 h2 h3
    subst h1; subst h2; subst h3
    simp only [localeCategories, List.mem_cons, Prod.mk.injEq,
      List.not_mem_nil, or_false] at hin
    rcases hin with ⟨h1, h2⟩ | ⟨h1, h2⟩ | ⟨h1, h2⟩ | ⟨h1, h2⟩ | ⟨h1, h2⟩ | ⟨h1, h2⟩ <;>
      subst h1 <;> subst h2
    · rcases hcat with h | h | h <;> simp at h
    · rcases hcat with h | h | h <;> simp at h
    · rcases hcat with h | h | h <;> simp at h
    · exact ⟨rfl, by rcases hr with h | h <;> exact h⟩
    · exact ⟨rfl, by rcases hr with h | h <;> exact h⟩
    · exact ⟨rfl, by rcases hr with h | h <;> exact h⟩
  · obtain ⟨rest, hres⟩ := mainAfterLocale_fst c (baseEvents c)
    refine ⟨rest, ?_⟩
    rw [mainModel_of_ok c hloc, hres]
    simp [baseEvents]

/-- Witness for C6 at a concrete configuration in which every locale is
adoptable. -/
theorem pinned_categories_and_lc_all_witness :
    ∃ rest, (mainModel ⟨["postgres"], 1, 1, fun _ _ => true, "u", false⟩).1 =
      (runLocaleSetup (fun _ _ => true) localeCategories).1 ++
        Event.unsetEnvVar "LC_ALL" :: rest :=
  (pinned_categories_and_lc_all ⟨["postgres"], 1, 1, fun _ _ => true, "u", false⟩ rfl).2

end PgMain

namespace PgMain

/-- Reduction of `classifyMode` once the first argument is known. -/
lemma classifyMode_some (e : Bool) (argv : List String) (a1 : String)
    (h : argv.get? 1 = some a1) :
    classifyMode e argv =
      (if a1 = "--help" ∨ a1 = "-?" then ExecutionMode.ShowHelp
       else if a1 = "--version" ∨ a1 = "-V" then ExecutionMode.ShowVersion
       else if e && List.isPrefixOf "--fork".toList a1.toList then
         ExecutionMode.ForkedWorker
       else if a1 = "--boot" then ExecutionMode.BootstrapLoad
       else if a1 = "--describe-config" then ExecutionMode.DescribeConfig
       else if a1 = "--single" then ExecutionMode.SingleSession
       else ExecutionMode.Supervisor) := by
  unfold classifyMode
  rw [h]

/-- C1 as written is refuted: `--describe-config` appears among the
arguments of `postgres --boot --describe-config`, yet the `do_check_root`
flag stays set, and with effective uid 0 the process exits with status 1
instead of bypassing the check. -/
theorem describe_config_anywhere_counterexample :
    "--describe-config" ∈ ["postgres", "--boot", "--describe-config"] ∧
    doCheckRoot ["postgres", "--boot", "--describe-config"] = true ∧
    (mainModel ⟨["postgres", "--boot", "--describe-config"], 0, 0,
      fun _ _ => true, "u", false⟩).2 = Outcome.exited 1 := by
  refine ⟨by decide, by decide, ?_⟩
  rfl

/-- C1 amended: the privilege check is bypassed exactly when
`--describe-config` is the first argument (argv[1]), or `-C` is the first
argument with a value present in argv[2]; in every other case the
`do_check_root` flag stays set (the flag never consults process
identity). -/
theorem privilege_bypass_iff (argv : List String) :
    doCheckRoot argv = false ↔
      (argv.get? 1 = some "--describe-config" ∨
       (argv.get? 1 = some "-C" ∧ argv.get? 2 ≠ none)) := by
  have hlen : argv.get? 2 ≠ none ↔ 2 < argv.length := by
    rw [Ne, List.get?_eq_none]
    omega
  cases ha : argv.get? 1 with
  | none =>
    simp only [doCheckRoot]
    rw [ha]
    simp [ha]
  | some a1 =>
    simp only [doCheckRoot, ha, Option.some.injEq, hlen]
    by_cases h1 : a1 = "--describe-config"
    · subst h1; simp
    · by_cases h2 : a1 = "-C"
      · subst h2
        by_cases hl : 2 < argv.length <;> simp [h1, hl]
      · simp [h1, h2]

/-- C2: mode classification is total, inspects only the first argument,
maps each recognized token to its mode (`--fork`-prefixed tokens to
ForkedWorker only in an `EXEC_BACKEND` build), and resolves every
unrecognized or absent first argument to Supervisor. -/
theorem mode_classifier_total (e : Bool) (argv argv2 : List String) :
    (argv.get? 1 = argv2.get? 1 → classifyMode e argv = classifyMode e argv2) ∧
    (argv.get? 1 = none → classifyMode e argv = ExecutionMode.Supervisor) ∧
    (argv.get? 1 = some "--help" → classifyMode e argv = ExecutionMode.ShowHelp) ∧
    (argv.get? 1 = some "-?" → classifyMode e argv = ExecutionMode.ShowHelp) ∧
    (argv.get? 1 = some "--version" → classifyMode e argv = ExecutionMode.ShowVersion) ∧
    (argv.get? 1 = some "-V" → classifyMode e argv = ExecutionMode.ShowVersion) ∧
    (∀ a1, argv.get? 1 = some a1 → List.isPrefixOf "--fork".toList a1.toList = true →
      classifyMode e argv =
        if e then ExecutionMode.ForkedWorker else ExecutionMode.Supervisor) ∧
    (argv.get? 1 = some "--boot" → classifyMode e argv = ExecutionMode.BootstrapLoad) ∧
    (argv.get? 1 = some "--describe-config" →
      classifyMode e argv = ExecutionMode.DescribeConfig) ∧
    (argv.get? 1 = some "--single" → classifyMode e argv = ExecutionMode.SingleSession) ∧
    (∀ a1, argv.get? 1 = some a1 →
      a1 ∉ ["--help", "-?", "--version", "-V", "--boot", "--describe-config", "--single"] →
      List.isPrefixOf "--fork".toList a1.toList = false →
      classifyMode e argv = ExecutionMode.Supervisor) := by
  refine ⟨?_, ?_, ?_, ?_, ?_, ?_, ?_, ?_, ?_, ?_, ?_⟩
  · intro h
    unfold classifyMode
    rw [h]
  · intro h
    unfold classifyMode
    rw [h]
  · intro h
    rw [classifyMode_some e argv _ h, if_pos (Or.inl rfl)]
  · intro h
    rw [classifyMode_some e argv _ h, if_pos (Or.inr rfl)]
  · intro h
    rw [classifyMode_some e argv _ h, if_neg (by decide), if_pos (Or.inl rfl)]
  · intro h
    rw [classifyMode_some e argv _ h, if_neg (by decide), if_pos (Or.inr rfl)]
  · intro a1 ha hpre
    have h1 : a1 ≠ "--help" := by rintro rfl; exact absurd hpre (by decide)
    have h2 : a1 ≠ "-?" := by rintro rfl; exact absurd hpre (by decide)
    have h3 : a1 ≠ "--version" := by rintro rfl; exact absurd hpre (by decide)
    have h4 : a1 ≠ "-V" := by rintro rfl; exact absurd hpre (by decide)
    have h5 : a1 ≠ "--boot" := by rintro rfl; exact absurd hpre (by decide)
    have h6 : a1 ≠ "--describe-config" := by rintro rfl; exact absurd hpre (by decide)
    have h7 : a1 ≠ "--single" := by rintro rfl; exact absurd hpre (by decide)
    rw [classifyMode_some e argv _ ha]
    cases e
    · simp [h1, h2, h3, h4, h5, h6, h7]
    · rw [if_neg (by simp [h1, h2]), if_neg (by simp [h3, h4]),
        if_pos (by simp only [Bool.true_and]; exact hpre)]
      rfl
  · intro h
    have hpre : List.isPrefixOf "--fork".toList "--boot".toList = false := by decide
    rw [classifyMode_some e argv _ h, if_neg (by decide), if_neg (by decide)]
    rw [if_neg (by simp [hpre]), if_pos rfl]
  · intro h
    have hpre : List.isPrefixOf "--fork".toList "--describe-config".toList = false := by
      decide
    rw [classifyMode_some e argv _ h, if_neg (by decide), if_neg (by decide)]
    rw [if_neg (by simp [hpre]), if_neg (by decide), if_pos rfl]
  · intro h
    have hpre : List.isPrefixOf "--fork".toList "--single".toList = false := by decide
    rw [classifyMode_some e argv _ h, if_neg (by decide), if_neg (by decide)]
    rw [if_neg (by simp [hpre]), if_neg (by decide), if_neg (by decide), if_pos rfl]
  · intro a1 ha hnot hpre
    simp only [List.mem_cons, List.not_mem_nil, or_false, not_or] at hnot
    obtain ⟨h1, h2, h3, h4, h5, h6, h7⟩ := hnot
    have hpre2 : ¬ ("--fork".toList <+: a1.toList) := by
      rw [← List.isPrefixOf_iff_prefix, hpre]
      exact Bool.false_ne_true
    rw [classifyMode_some e argv _ ha]
    simp [h1, h2, h3, h4, h5, h6, h7, hpre2]
    exact fun _ => hpre2

/-- Witness for C2: an unrecognized first argument resolves to
Supervisor, and `--single` to SingleSession. -/
theorem mode_classifier_total_witness :
    classifyMode false ["postgres", "wat"] = ExecutionMode.Supervisor ∧
    classifyMode false ["postgres", "--single"] = ExecutionMode.SingleSession := by
  constructor
  · exact (mode_classifier_total false ["postgres", "wat"]
      []).2.2.2.2.2.2.2.2.2.2 "wat" rfl (by decide) (by decide)
  · exact (mode_classifier_total false ["postgres", "--single"]
      []).2.2.2.2.2.2.2.2.2.1 rfl

end PgMain

namespace PgMain

/-- C3: a first argument of `--help`/`-?` prints the usage document and
exits 0; a first argument of `--version`/`-V` prints the version string
and exits 0.  The resulting trace and exit code are those of the
short-circuit alone: the outcome is an exit, never a dispatch, it does not
depend on the process identity, and everything printed besides the locale
work is the one report, independent of any further arguments. -/
theorem help_version_short_circuit (c : Config)
    (hloc : (runLocaleSetup c.localeOk localeCategories).2 = none) :
    ((c.argv.get? 1 = some "--help" ∨ c.argv.get? 1 = some "-?") →
      mainModel c = (baseEvents c ++ [Event.wroteHelp], Outcome.exited 0)) ∧
    ((c.argv.get? 1 = some "--version" ∨ c.argv.get? 1 = some "-V") →
      mainModel c = (baseEvents c ++ [Event.wroteVersion], Outcome.exited 0)) := by
  constructor
  · intro h
    rw [mainModel_of_ok c hloc, mainAfterLocale_help c _ h]
  · intro h
    rw [mainModel_of_ok c hloc, mainAfterLocale_version c _ h]

/-- Witness for C3: `--help` exits 0 even with effective uid 0 (root), and
`--version` exits 0 with trailing arguments present. -/
theorem help_version_short_circuit_witness :
    mainModel ⟨["postgres", "--help"], 5, 0, fun _ _ => true, "u", false⟩ =
      (baseEvents ⟨["postgres", "--help"], 5, 0, fun _ _ => true, "u", false⟩ ++
        [Event.wroteHelp], Outcome.exited 0) ∧
    mainModel ⟨["postgres", "-V", "extra"], 0, 0, fun _ _ => true, "u", false⟩ =
      (baseEvents ⟨["postgres", "-V", "extra"], 0, 0, fun _ _ => true, "u", false⟩ ++
        [Event.wroteVersion], Outcome.exited 0) :=
  ⟨(help_version_short_circuit
      ⟨["postgres", "--help"], 5, 0, fun _ _ => true, "u", false⟩ rfl).1 (Or.inl rfl),
   (help_version_short_circuit
      ⟨["postgres", "-V", "extra"], 0, 0, fun _ _ => true, "u", false⟩ rfl).2 (Or.inr rfl)⟩

/-- C4: whenever the privilege check is not bypassed and the invocation is
not one of the help/version short-circuits, the process exits with status
1 before any dispatch if the effective uid is the superuser or the real
and effective uids differ — the latter even when the effective uid is not
root. -/
theorem root_check_exit_one (c : Config)
    (hloc : (runLocaleSetup c.localeOk localeCategories).2 = none)
    (hstd : ∀ a1, c.argv.get? 1 = some a1 →
      a1 ≠ "--help" ∧ a1 ≠ "-?" ∧ a1 ≠ "--version" ∧ a1 ≠ "-V")
    (hchk : doCheckRoot c.argv = true)
    (hpriv : c.euid = 0 ∨ c.ruid ≠ c.euid) :
    check_root c.ruid c.euid = some 1 ∧ (mainModel c).2 = Outcome.exited 1 := by
  have hcr : check_root c.ruid c.euid = some 1 := by
    unfold check_root
    rcases hpriv with h | h
    · simp [h]
    · by_cases h0 : c.euid = 0
      · simp [h0]
      · simp [h0, h]
  refine ⟨hcr, ?_⟩
  rw [mainModel_of_ok c hloc]
  unfold mainAfterLocale
  cases ha : c.argv.get? 1 with
  | none => simp [hchk, hcr]
  | some a1 =>
    obtain ⟨h1, h2, h3, h4⟩ := hstd a1 ha
    simp [h1, h2, h3, h4, hchk, hcr]

/-- Witness for C4: root (euid 0) with `--boot` exits 1, and a non-root
real/effective mismatch (ruid 5, euid 7) with no arguments exits 1. -/
theorem root_check_exit_one_witness :
    (mainModel ⟨["postgres", "--boot"], 5, 0, fun _ _ => true, "u", false⟩).2 =
      Outcome.exited 1 ∧
    (mainModel ⟨["postgres"], 5, 7, fun _ _ => true, "u", false⟩).2 =
      Outcome.exited 1 :=
  ⟨(root_check_exit_one ⟨["postgres", "--boot"], 5, 0, fun _ _ => true, "u", false⟩
      rfl (fun a1 ha => by cases ha; exact ⟨by decide, by decide, by decide, by decide⟩)
      rfl (Or.inl rfl)).2,
   (root_check_exit_one ⟨["postgres"], 5, 7, fun _ _ => true, "u", false⟩
      rfl (fun a1 ha => by cases ha)
      rfl (Or.inr (by decide))).2⟩

end PgMain

namespace PgMain

/-- The fork test fails whenever the first argument does not start with
`"--fork"`. -/
lemma forkTest_eq_false (e : Bool) (argv : List String) (a1 : String)
    (h : argv.get? 1 = some a1)
    (hpre : List.isPrefixOf "--fork".toList a1.toList = false) :
    forkTest e argv = false := by
  unfold forkTest
  rw [h]
  show (e && List.isPrefixOf "--fork".toList a1.toList) = false
  rw [hpre, Bool.and_false]

/-- The dispatch chain defaults to the supervisor entry when there is no
first argument. -/
lemma chainCall_none (c : Config) (h : c.argv.get? 1 = none) :
    chainCall c = DispatchCall.postmaster c.argv := by
  unfold chainCall
  rw [h]

/-- Reduction of the dispatch chain once the first argument is known. -/
lemma chainCall_some (c : Config) (a1 : String) (h : c.argv.get? 1 = some a1) :
    chainCall c =
      (if a1 = "--boot" then DispatchCall.auxiliaryProcess c.argv
       else if a1 = "--describe-config" then DispatchCall.gucInfo
       else if a1 = "--single" then DispatchCall.postgresSingle c.argv none c.userName
       else DispatchCall.postmaster c.argv) := by
  unfold chainCall
  rw [h]

/-- C7: with `--single` as the first argument, `main` hands the full
argument vector to the single-session engine, with a `NULL` dbname and the
session-owner name resolved from the invoking user identity supplied as
the default; the spec-modelled target resolution of the engine then uses a
given database name such as `mydb` as the target and falls back to that
default name only when no explicit target argument is given. -/
theorem single_session_dispatch (c : Config) (h : c.argv.get? 1 = some "--single") :
    dispatchCall c = DispatchCall.postgresSingle c.argv none c.userName ∧
    (∀ db, c.argv.get? 2 = some db → singleSessionTarget c.argv c.userName = db) ∧
    (c.argv.get? 2 = none → singleSessionTarget c.argv c.userName = c.userName) := by
  refine ⟨?_, ?_, ?_⟩
  · have hf : forkTest c.execBackend c.argv = false :=
      forkTest_eq_false c.execBackend c.argv _ h (by decide)
    unfold dispatchCall
    rw [hf]
    simp only [Bool.false_eq_true, if_false]
    rw [chainCall_some c _ h, if_neg (by decide), if_neg (by decide), if_pos rfl]
  · intro db hdb
    unfold singleSessionTarget
    rw [hdb]
  · intro h2
    unfold singleSessionTarget
    rw [h2]

/-- Witness for C7: `postgres --single mydb` dispatches to the
single-session engine with the full argument vector and the invoking
user's name, and `mydb` resolves as the target; with no database argument
the default name resolves instead. -/
theorem single_session_dispatch_witness :
    dispatchCall ⟨["postgres", "--single", "mydb"], 1, 1, fun _ _ => true, "bob", false⟩ =
      DispatchCall.postgresSingle ["postgres", "--single", "mydb"] none "bob" ∧
    singleSessionTarget ["postgres", "--single", "mydb"] "bob" = "mydb" ∧
    singleSessionTarget ["postgres", "--single"] "bob" = "bob" :=
  ⟨(single_session_dispatch
      ⟨["postgres", "--single", "mydb"], 1, 1, fun _ _ => true, "bob", false⟩ rfl).1,
   (single_session_dispatch
      ⟨["postgres", "--single", "mydb"], 1, 1, fun _ _ => true, "bob", false⟩ rfl).2.1
      "mydb" rfl,
   (single_session_dispatch
      ⟨["postgres", "--single"], 1, 1, fun _ _ => true, "bob", false⟩ rfl).2.2 rfl⟩

/-- C8: the dispatch section always invokes at least one role driver;
when every driver honours its never-return contract, exactly one driver
is invoked and `abort()` is not reached; and whenever the last invoked
driver does return control, the process hits `abort()` — an abnormal
termination, never a graceful exit or fall-through. -/
theorem dispatch_total_nonreturning (c : Config) (returns : DispatchTarget → Bool) :
    (runDispatch c returns).1 ≠ [] ∧
    ((∀ t, returns t = false) →
      runDispatch c returns = ([callTarget (dispatchCall c)], false)) ∧
    (∀ t, (runDispatch c returns).1.getLast? = some t →
      (runDispatch c returns).2 = returns t) := by
  cases hf : forkTest c.execBackend c.argv with
  | false =>
    simp only [runDispatch, hf, Bool.false_eq_true, if_false]
    refine ⟨by simp, ?_, ?_⟩
    · intro hall
      rw [hall, dispatchCall, if_neg (by rw [hf]; exact Bool.false_ne_true)]
    · intro t ht
      simp only [List.getLast?_singleton, Option.some.injEq] at ht
      rw [ht]
  | true =>
    cases hr : returns DispatchTarget.SubPostmasterMain with
    | true =>
      simp only [runDispatch, hf, hr, if_true]
      refine ⟨by simp, ?_, ?_⟩
      · intro hall
        rw [hall DispatchTarget.SubPostmasterMain] at hr
        cases hr
      · intro t ht
        simp only [List.getLast?_cons_cons, List.getLast?_singleton,
          Option.some.injEq] at ht
        rw [ht]
    | false =>
      simp only [runDispatch, hf, hr, if_true, Bool.false_eq_true, if_false]
      refine ⟨by simp, ?_, ?_⟩
      · intro hall
        rw [dispatchCall, if_pos hf]
        rfl
      · intro t ht
        simp only [List.getLast?_singleton, Option.some.injEq] at ht
        rw [← ht, hr]

/-- Witness for C8: with `--boot` and contract-honouring drivers exactly
the bootstrap loader is invoked and `abort()` is unreachable; with a
supervisor driver that returns control, `abort()` is reached. -/
theorem dispatch_total_nonreturning_witness :
    runDispatch ⟨["postgres", "--boot"], 1, 1, fun _ _ => true, "u", false⟩
      (fun _ => false) = ([DispatchTarget.AuxiliaryProcessMain], false) ∧
    (runDispatch ⟨["postgres"], 1, 1, fun _ _ => true, "u", false⟩ (fun _ => true)).2 =
      true :=
  ⟨(dispatch_total_nonreturning
      ⟨["postgres", "--boot"], 1, 1, fun _ _ => true, "u", false⟩
      (fun _ => false)).2.1 (fun _ => rfl),
   (dispatch_total_nonreturning ⟨["postgres"], 1, 1, fun _ _ => true, "u", false⟩
      (fun _ => true)).2.2 DispatchTarget.PostmasterMain rfl⟩

/-- C9: `-C` as the first argument with a value present bypasses the
privilege check, yet it is not a dispatch token — the invocation falls
through the mode chain to the supervisor entry; the configuration
reporter is reached exactly when `--describe-config` is the first
argument. -/
theorem dash_c_supervisor_dispatch (c : Config)
    (h1 : c.argv.get? 1 = some "-C") (h2 : c.argv.get? 2 ≠ none) :
    doCheckRoot c.argv = false ∧
    dispatchCall c = DispatchCall.postmaster c.argv ∧
    (∀ c2 : Config, dispatchCall c2 = DispatchCall.gucInfo ↔
      c2.argv.get? 1 = some "--describe-config") := by
  have hlen : 2 < c.argv.length := by
    by_contra hcon
    exact h2 (List.get?_eq_none.mpr (by omega))
  have hf : forkTest c.execBackend c.argv = false :=
    forkTest_eq_false c.execBackend c.argv _ h1 (by decide)
  refine ⟨?_, ?_, ?_⟩
  · simp only [doCheckRoot, h1]
    rw [if_neg (by decide), if_pos (by simp [hlen])]
  · unfold dispatchCall
    rw [hf]
    simp only [Bool.false_eq_true, if_false]
    rw [chainCall_some c _ h1, if_neg (by decide), if_neg (by decide), if_neg (by decide)]
  · intro c2
    constructor
    · intro hg
      unfold dispatchCall at hg
      by_cases hf2 : forkTest c2.execBackend c2.argv
      · rw [if_pos hf2] at hg
        cases hg
      · rw [if_neg hf2] at hg
        cases ha : c2.argv.get? 1 with
        | none => rw [chainCall_none c2 ha] at hg; cases hg
        | some a1 =>
          rw [chainCall_some c2 _ ha] at hg
          by_cases hb : a1 = "--boot"
          · rw [if_pos hb] at hg; cases hg
          · rw [if_neg hb] at hg
            by_cases hd : a1 = "--describe-config"
            · exact congrArg some hd
            · rw [if_neg hd] at hg
              by_cases hs : a1 = "--single"
              · rw [if_pos hs] at hg; cases hg
              · rw [if_neg hs] at hg; cases hg
    · intro ha
      have hf2 : forkTest c2.execBackend c2.argv = false :=
        forkTest_eq_false c2.execBackend c2.argv _ ha (by decide)
      unfold dispatchCall
      rw [hf2]
      simp only [Bool.false_eq_true, if_false]
      rw [chainCall_some c2 _ ha, if_neg (by decide), if_pos rfl]

/-- Witness for C9: `postgres -C port` clears the root-check flag yet is
handed to the supervisor entry, while `postgres --describe-config` is
handed to the configuration reporter. -/
theorem dash_c_supervisor_dispatch_witness :
    doCheckRoot ["postgres", "-C", "port"] = false ∧
    dispatchCall ⟨["postgres", "-C", "port"], 1, 1, fun _ _ => true, "u", false⟩ =
      DispatchCall.postmaster ["postgres", "-C", "port"] ∧
    dispatchCall ⟨["postgres", "--describe-config"], 1, 1, fun _ _ => true, "u", false⟩ =
      DispatchCall.gucInfo := by
  obtain ⟨ha, hb, hc⟩ := dash_c_supervisor_dispatch
    ⟨["postgres", "-C", "port"], 1, 1, fun _ _ => true, "u", false⟩ rfl (by simp)
  exact ⟨ha, hb,
    (hc ⟨["postgres", "--describe-config"], 1, 1, fun _ _ => true, "u", false⟩).mpr rfl⟩

end PgMain

namespace PgMain

/-- C10: locale negotiation and the clearing of `LC_ALL` happen before the
help/version short-circuit is evaluated: an invocation whose first argument
is `--help`/`-?` or `--version`/`-V` first records every locale category
and the removal of `LC_ALL` and only then prints; and a total
locale-adoption failure terminates the process fatally, with its trace
containing no help or version output. -/
theorem locale_before_reporting (c : Config) :
    ((runLocaleSetup c.localeOk localeCategories).2 = none →
      ((c.argv.get? 1 = some "--help" ∨ c.argv.get? 1 = some "-?") →
        (mainModel c).1 = (runLocaleSetup c.localeOk localeCategories).1 ++
          Event.unsetEnvVar "LC_ALL" :: [Event.wroteHelp]) ∧
      ((c.argv.get? 1 = some "--version" ∨ c.argv.get? 1 = some "-V") →
        (mainModel c).1 = (runLocaleSetup c.localeOk localeCategories).1 ++
          Event.unsetEnvVar "LC_ALL" :: [Event.wroteVersion])) ∧
    (∀ cat loc, (runLocaleSetup c.localeOk localeCategories).2 = some (cat, loc) →
      (mainModel c).2 = Outcome.fatalLocale cat loc ∧
      Event.wroteHelp ∉ (mainModel c).1 ∧
      Event.wroteVersion ∉ (mainModel c).1) := by
  constructor
  · intro hloc
    constructor
    · intro h
      rw [mainModel_of_ok c hloc, mainAfterLocale_help c _ h]
      simp [baseEvents]
    · intro h
      rw [mainModel_of_ok c hloc, mainAfterLocale_version c _ h]
      simp [baseEvents]
  · intro cat loc hfail
    have hm : mainModel c = ((runLocaleSetup c.localeOk localeCategories).1,
        Outcome.fatalLocale cat loc) := by
      simp only [mainModel]
      rw [hfail]
    refine ⟨by rw [hm], ?_, ?_⟩
    · rw [hm]
      intro hmem
      obtain ⟨c2, l2, r2, heq, _, _⟩ :=
        runLocaleSetup_events c.localeOk localeCategories _ hmem
      exact Event.noConfusion heq
    · rw [hm]
      intro hmem
      obtain ⟨c2, l2, r2, heq, _, _⟩ :=
        runLocaleSetup_events c.localeOk localeCategories _ hmem
      exact Event.noConfusion heq

/-- Witness for C10: with every locale adoptable, `postgres --help` first
records the six locale settings and the `LC_ALL` removal and then the help
output; with no locale adoptable, the same invocation dies fatally on the
first category without printing anything. -/
theorem locale_before_reporting_witness :
    (mainModel ⟨["postgres", "--help"], 1, 1, fun _ _ => true, "u", false⟩).1 =
      (runLocaleSetup (fun _ _ => true) localeCategories).1 ++
        Event.unsetEnvVar "LC_ALL" :: [Event.wroteHelp] ∧
    (mainModel ⟨["postgres", "--help"], 1, 1, fun _ _ => false, "u", false⟩).2 =
      Outcome.fatalLocale "LC_COLLATE" "" ∧
    Event.wroteHelp ∉
      (mainModel ⟨["postgres", "--help"], 1, 1, fun _ _ => false, "u", false⟩).1 :=
  ⟨((locale_before_reporting
      ⟨["postgres", "--help"], 1, 1, fun _ _ => true, "u", false⟩).1 rfl).1 (Or.inl rfl),
   ((locale_before_reporting
      ⟨["postgres", "--help"], 1, 1, fun _ _ => false, "u", false⟩).2
      "LC_COLLATE" "" rfl).1,
   ((locale_before_reporting
      ⟨["postgres", "--help"], 1, 1, fun _ _ => false, "u", false⟩).2
      "LC_COLLATE" "" rfl).2.1⟩

end PgMain
